import Mathlib

/-!
Verification of the channel-legalization and proc-network-execution core of
the XLS repository against its natural-language specification (spec.md).

The repository excerpt ships the test file
`xls/passes/channel_legalization_pass_test.cc` but not the implementation of
the channel legalization pass, the channel queues, or the serial proc
runtime.  The definitions below are therefore a shallow embedding modelled
from the spec (sections 3, 4.2, 4.3, 4.4, 6 and 7 of spec.md), with the
observable behavior pinned down by the test file wherever the two disagree:
the per-strictness `builder_matcher` tables and the `evaluate` functions of
`channel_legalization_pass_test.cc` are the only code of this repository
that decides these claims, so they are treated as the authority on observed
results.  Each definition's doc comment records its provenance.

The concrete scenario embeddings (`scenarioA*`, `scenarioB*`, `scenC*`,
`scenUnordPreds`, ...) are transcribed from the IR text literals inside the
test file, which are part of the shipped source.
-/

/-- The five channel strictness policies, from spec.md section 3 and the
`ChannelStrictness` enumeration used throughout
`channel_legalization_pass_test.cc`. -/
inductive ChannelStrictness where
  | proven_mutually_exclusive
  | runtime_mutually_exclusive
  | total_order
  | runtime_ordered
  | arbitrary_static_order
deriving DecidableEq

/-- Status codes mirroring the absl status codes the tests match on
(`kAborted`, `kDeadlineExceeded`, `kInternal`). -/
inductive StatusCode where
  | aborted
  | deadlineExceeded
  | internal
deriving DecidableEq

/-- An error status: a code plus a human-readable message.  The spec's
section 6 fixes three message substrings as part of the observable
interface. -/
structure Status where
  code : StatusCode
  message : String
deriving DecidableEq

/-- `containsSubstr s sub` holds when `sub` occurs contiguously inside `s`.
This is the shallow counterpart of the `HasSubstr` matcher used by the
tests. -/
def containsSubstr (s sub : String) : Prop :=
  ∃ p q, s = p ++ sub ++ q

/-- Modelled from the spec: message emitted when a mutual-exclusion
guarantee is violated at run time.  Spec.md section 6 requires the exact
substring "predicate was not mutually exclusive"; the channel name is
included because section 4.2 says errors name the channel. -/
def mutexViolationMsg (name : String) : String :=
  "channel " ++ name ++ ": " ++ "predicate was not mutually exclusive" ++ " in one activation"

/-- Modelled from the spec: message emitted when a `TotalOrder` channel's
operations are not linearized by the token graph.  Spec.md section 6
requires the exact substring "is not totally ordered". -/
def notTotallyOrderedMsg (name : String) : String :=
  "channel " ++ name ++ " " ++ "is not totally ordered" ++ " by the token graph"

/-- Modelled from the spec: message emitted when the tick budget elapses
with output targets unmet.  Spec.md section 6 requires the substring
"Blocked channels: " followed by the names of the stalled channels. -/
def deadlineMsg (names : String) : String :=
  "deadline exceeded before requested outputs were produced; " ++
    ("Blocked channels: " ++ names) ++ " remain stalled"

/-!
## Token graph

Modelled from the spec: spec.md section 3 ("Token") and 4.1.  The
implementation of the IR graph model is not shipped; a per-process token
graph is embedded as a predecessor-list DAG over operation indices, and
token precedence is DAG reachability (the "reachability query" primitive of
section 4.1).
-/

/-- Fuel-bounded reachability over a predecessor-list graph: `tokenReach
preds fuel src dst` is true when `dst` is reachable from `src` by following
token edges backwards from `dst`.  Fuel larger than the node count makes
this exact on an acyclic graph. -/
def tokenReach (preds : List (List Nat)) : Nat → Nat → Nat → Bool
  | 0, _, _ => false
  | fuel + 1, src, dst =>
      src == dst || ((preds.getD dst []).any fun p => tokenReach preds fuel src p)

/-- Operation `a` token-precedes operation `b`: `a ≠ b` and `b` is
reachable from `a` in the token DAG.  Spec.md section 4.1: "for two
operations on the same process, report whether one token-precedes the
other (reachability in the DAG)". -/
def tokenPrecedes (preds : List (List Nat)) (a b : Nat) : Bool :=
  a != b && tokenReach preds (preds.length + 1) a b

/-- All pairs of distinct operations in `ops` are ordered one way or the
other by the token graph (spec.md section 4.2 step 2: "If every pair is
ordered (one reaches the other), a candidate total order exists"). -/
def pairwiseOrdered (preds : List (List Nat)) (ops : List Nat) : Bool :=
  ops.all fun a => ops.all fun b =>
    a == b || tokenPrecedes preds a b || tokenPrecedes preds b a

/-- The operations touching one channel: the channel's name, its declared
strictness, and the operation indices in declaration order (spec.md
section 4.2 step 1). -/
structure ChanOps where
  name : String
  strictness : ChannelStrictness
  ops : List Nat
deriving DecidableEq

/-- Modelled from the spec: the static outcome of legalizing one channel
(the channel legalization pass implementation is not shipped).  Follows
spec.md section 4.2 step 3, with one adjustment pinned by the shipped test:
for `ProvenMutuallyExclusive` the pass *skips* the channel and reports
success without change — the `builder_matcher` tables in
`channel_legalization_pass_test.cc` expect `IsOk()` for every
`ProvenMutuallyExclusive` case, including two unconditional operations in
two different procs (test `TwoProcsAlwaysFiringCausesError`), with the
comment "Mutually exclusive OK - channel legalization pass skips them.
They are ultimately handled them in scheduling."  Returns `ok changed` or
an error status; `TotalOrder` fails with `kInternal` and a message
containing "is not totally ordered" exactly when the operations are not
pairwise token-ordered, matching the `SingleProcWithPartialOrder`
matcher. -/
def legalizeResult (preds : List (List Nat)) (c : ChanOps) : Except Status Bool :=
  if c.ops.length ≤ 1 then .ok false
  else if c.strictness = .proven_mutually_exclusive then .ok false
  else if c.strictness = .total_order then
    (if pairwiseOrdered preds c.ops then .ok true
     else .error ⟨.internal, notTotallyOrderedMsg c.name⟩)
  else .ok true

/-!
## Runtime adapter semantics

Modelled from the spec: spec.md sections 3 ("Adapter", "Predicate"), 4.4
("Runtime policy violation") and 8, with the `RuntimeOrdered` tie behavior
pinned by the shipped test `SingleProcWithPartialOrder` (its `evaluate`
expects `kAborted` with "was not mutually exclusive" when the two unordered
predicated sends fire in the same activation under `RuntimeOrdered`).
-/

/-- One operation on a channel during one activation: whether its predicate
evaluated true, and the value it would transfer. -/
structure OpInstance where
  enabled : Bool
  value : Nat
deriving DecidableEq

/-- Number of operations with a true predicate in this activation. -/
def enabledCount (insts : List OpInstance) : Nat :=
  (insts.filter fun i => i.enabled).length

/-- The values transferred on the channel by this activation, in the fixed
serialization order (declaration order; disabled operations are vacuous and
transfer nothing, spec.md section 3 "Predicate"). -/
def forwardedValues (insts : List OpInstance) : List Nat :=
  ((insts.filter fun i => i.enabled).map fun i => i.value)

/-- Whether two distinct enabled operations in this activation are unordered
with respect to the token graph (`ord i j` = operation at declaration index
`i` token-precedes the one at index `j`). -/
def hasUnorderedEnabledPair (ord : Nat → Nat → Bool) (insts : List OpInstance) : Bool :=
  ((List.range insts.length).filter fun i => (insts.getD i ⟨false, 0⟩).enabled).any fun i =>
    ((List.range insts.length).filter fun j => (insts.getD j ⟨false, 0⟩).enabled).any fun j =>
      i != j && !ord i j && !ord j i

/-- Modelled from the spec: what the (adapter for the) channel named `name`
does with the operations of one activation.  `RuntimeMutuallyExclusive`
aborts when two operations are enabled in one activation (spec.md section
4.4); `RuntimeOrdered` aborts when two enabled operations are unordered by
the token graph (pinned by the `SingleProcWithPartialOrder` test) and
otherwise serializes; the static policies forward the enabled operations in
their fixed order. -/
def adapterStep (name : String) (s : ChannelStrictness) (ord : Nat → Nat → Bool)
    (insts : List OpInstance) : Except Status (List Nat) :=
  match s with
  | .runtime_mutually_exclusive =>
      if 2 ≤ enabledCount insts then .error ⟨.aborted, mutexViolationMsg name⟩
      else .ok (forwardedValues insts)
  | .runtime_ordered =>
      if hasUnorderedEnabledPair ord insts then .error ⟨.aborted, mutexViolationMsg name⟩
      else .ok (forwardedValues insts)
  | _ => .ok (forwardedValues insts)

/-- The observable outcome of a simulation run projected onto one channel:
the queue contents produced so far, and the error that aborted the run (if
any).  Spec.md section 7: "prior outputs remain valid and inspectable". -/
structure RunResult where
  outputs : List Nat
  error : Option Status
deriving DecidableEq

/-- Modelled from the spec: run a sequence of activations through the
adapter of channel `name`.  Each successful activation appends its
forwarded values to the channel queue; the first policy violation aborts
the run, keeping the outputs already produced and producing none for the
violating activation (spec.md sections 4.4 and 7). -/
def runActivations (name : String) (s : ChannelStrictness) (ord : Nat → Nat → Bool) :
    List (List OpInstance) → RunResult
  | [] => ⟨[], none⟩
  | act :: rest =>
      match adapterStep name s ord act with
      | .error st => ⟨[], some st⟩
      | .ok vals =>
          let r := runActivations name s ord rest
          ⟨vals ++ r.outputs, r.error⟩

/-!
## Scenario embeddings

Transcribed from the IR text literals in
`channel_legalization_pass_test.cc` (which ships with the repository).
-/

/-- A token-order callback saying no pair of operations is token-ordered
(operations living in different procs have no token edges between them,
spec.md section 5). -/
def noTokenOrder : Nat → Nat → Bool := fun _ _ => false

/-- Token predecessor graph of the two sends on channel `out` in test
`SingleProcBackToBackDataSwitchingOps`: `send0` (index 0) feeds its token
to `send1` (index 1); likewise for the two receives on `in`. -/
def scenAOutPreds : List (List Nat) := [[], [0]]

/-- Token order among the `out` operations of scenario A. -/
def scenAOrd : Nat → Nat → Bool := tokenPrecedes scenAOutPreds

/-- Split a list into adjacent pairs, dropping a trailing odd element. -/
def pairChunks : List Nat → List (Nat × Nat)
  | a :: b :: rest => (a, b) :: pairChunks rest
  | _ => []

/-- Activations of the `out` channel in scenario A
(`SingleProcBackToBackDataSwitchingOps`): each activation receives two
inputs `a` then `b` from `in`, and the proc's sends are `send0` carrying
`recv1_data` (= `b`) and then `send1` carrying `recv0_data` (= `a`), both
unconditional. -/
def scenarioAOutActs (inputs : List Nat) : List (List OpInstance) :=
  (pairChunks inputs).map fun p => [⟨true, p.2⟩, ⟨true, p.1⟩]

/-- The output sequence the test expects on `out` for scenario A with the
32 inputs 0..31: each adjacent pair swapped. -/
def scenAExpected : List Nat :=
  [1, 0, 3, 2, 5, 4, 7, 6, 9, 8, 11, 10, 13, 12, 15, 14, 17, 16, 19, 18,
   21, 20, 23, 22, 25, 24, 27, 26, 29, 28, 31, 30]

/-- Activations of the `out` channel in scenario B
(`TwoProcsMutuallyExclusive`): `proc_a` (declaration index 0, predicate
seeded 1) is enabled on even activations, `proc_b` (index 1, seeded 0) on
odd ones; whichever is enabled receives the next input `v` and sends it;
the other proc's operations are vacuous. -/
def scenarioBOutActs : Nat → List Nat → List (List OpInstance)
  | _, [] => []
  | i, v :: rest =>
      (if i % 2 == 0 then [⟨true, v⟩, ⟨false, 0⟩] else [⟨false, 0⟩, ⟨true, v⟩]) ::
        scenarioBOutActs (i + 1) rest

/-- Token predecessor graph of the three sends on channel `out` in test
`SingleProcWithPartialOrder`: `send1` (index 1) and `send2` (index 2) both
hang off `send0` (index 0) and are unordered with respect to each other. -/
def scenUnordPreds : List (List Nat) := [[], [0], [0]]

/-- The `out` channel of `SingleProcWithPartialOrder` under `TotalOrder`
strictness: sends `send0`, `send1`, `send2` in declaration order. -/
def scenUnordOutTO : ChanOps := ⟨"out", .total_order, [0, 1, 2]⟩

/-- The `in` channel of `TwoProcsAlwaysFiringCausesError` under
`ProvenMutuallyExclusive` strictness: one unconditional receive in each of
`proc_a` and `proc_b`, with no token edges between the procs. -/
def twoProcsInChanPME : ChanOps := ⟨"in", .proven_mutually_exclusive, [0, 1]⟩

/-- State of scenario C (`PredicateArrivesOutOfOrder`): the queues of the
two predicate input channels and of the output channel. -/
structure ScenCState where
  pred0q : List Nat
  pred1q : List Nat
  outq : List Nat
deriving DecidableEq

/-- Modelled from the spec: one tick of the interpreter on the
`PredicateArrivesOutOfOrder` proc.  The proc first receives from `pred1`,
then from `pred0`; `out_send0` (value 0) is guarded by the `pred0` datum
and token-precedes `out_send1` (value 1, guarded by the `pred1` datum via
`after_all(out_send0, pred1_recv_token)`).  An activation therefore
completes only when both predicate queues hold data; otherwise the proc
stalls at the empty receive and the tick changes nothing (spec.md section
4.4 "Tick"). -/
def scenCTick (st : ScenCState) : ScenCState :=
  match st.pred0q, st.pred1q with
  | p0 :: r0, p1 :: r1 =>
      ⟨r0, r1, st.outq ++ (if p0 != 0 then [0] else []) ++ (if p1 != 0 then [1] else [])⟩
  | _, _ => st

/-- The channels scenario C's proc is currently stalled on: the first of
its receives whose queue is empty (the proc receives `pred1` first, then
`pred0`). -/
def scenCBlocked (st : ScenCState) : List String :=
  if st.pred1q = [] then ["pred1"]
  else if st.pred0q = [] then ["pred0"]
  else []

/-!
## TickUntilOutput

Modelled from the spec: spec.md section 4.4, "TickUntilOutput(targets,
max_ticks): repeatedly ticks until every channel in targets has produced at
least its requested count of values since the call began, or max_ticks
elapses (deadline-exceeded)...", and the deadlock-reporting contract of
sections 4.4 and 6 ("If the maximum tick count elapses while output targets
are unmet, the run fails with a deadline-exceeded error that names the
still-blocked channels").  The serial proc runtime implementation is not
shipped.  The model is parametric in the network: `tick` advances the
network state, `produced` counts the values produced on the target channel
since the call began, and `blocked` lists the channels processes are
stalled on. -/
def tickUntilOutput {σ : Type} (tick : σ → σ) (produced : σ → Nat)
    (blocked : σ → List String) (target : Nat) : Nat → σ → Except Status σ
  | 0, st => .error ⟨.deadlineExceeded, deadlineMsg (String.intercalate ", " (blocked st))⟩
  | n + 1, st =>
      if target ≤ produced st then .ok st
      else tickUntilOutput tick produced blocked target n (tick st)

/-!
## Package-level legalization

Modelled from the spec: spec.md section 4.2 ("For every non-skip case,
synthesize: one internal request/data channel per original operation, an
adapter process ...") and section 3 ("Exactly one declared channel per
id").  The pass implementation is not shipped; a package is embedded as its
channel summary: per channel its id, name, strictness, number of operations
touching it across the network, and whether those operations are totally
ordered by the token graph.
-/

/-- Channel summary of a package. -/
structure PackChan where
  id : Nat
  name : String
  strictness : ChannelStrictness
  numOps : Nat
  orderedB : Bool
deriving DecidableEq

/-- Modelled from the spec: the strictness given to synthesized internal
channels (spec.md section 6 says omitted strictness "defaults to a
most-permissive policy"; each internal channel carries a single operation,
so any policy is skipped on it). -/
def defaultStrictness : ChannelStrictness := .arbitrary_static_order

/-- Name of the `k`-th internal channel synthesized for channel `name`. -/
def internalName (name : String) (k : Nat) : String :=
  name ++ "__internal" ++ toString k

/-- Modelled from the spec: adapter insertion for one channel (spec.md
section 4.2 step 4).  The real channel keeps its identity but is rewired so
only the adapter's single operation touches it, and one internal channel
per original operation is synthesized, with fresh ids starting at
`fresh`. -/
def adapterRewrite (fresh : Nat) (c : PackChan) : List PackChan :=
  ⟨c.id, c.name, c.strictness, 1, true⟩ ::
    (List.range c.numOps).map fun k =>
      ⟨fresh + k, internalName c.name k, defaultStrictness, 1, true⟩

/-- Modelled from the spec: legalize one channel of a package (spec.md
section 4.2; single-operation channels are passed through untouched,
`ProvenMutuallyExclusive` channels are skipped as pinned by the test's
`builder_matcher` tables, `TotalOrder` fails when the operations are not
totally ordered, every other case inserts an adapter).  Returns the
channels replacing this one, whether the graph changed, and the next fresh
id. -/
def legalizeChanP (fresh : Nat) (c : PackChan) :
    Except Status (List PackChan × Bool × Nat) :=
  if c.numOps ≤ 1 then .ok ([c], false, fresh)
  else if c.strictness = .proven_mutually_exclusive then .ok ([c], false, fresh)
  else if c.strictness = .total_order then
    (if c.orderedB then .ok (adapterRewrite fresh c, true, fresh + c.numOps)
     else .error ⟨.internal, notTotallyOrderedMsg c.name⟩)
  else .ok (adapterRewrite fresh c, true, fresh + c.numOps)

/-- Modelled from the spec: legalize the channels of a package in order,
threading the fresh-id counter; the overall pass result is a failure if any
channel fails (spec.md section 4.2, failure reporting). -/
def legalizeGo : Nat → List PackChan → Except Status (List PackChan × Bool × Nat)
  | fresh, [] => .ok ([], false, fresh)
  | fresh, c :: cs =>
      match legalizeChanP fresh c with
      | .error e => .error e
      | .ok (l1, ch1, f1) =>
          match legalizeGo f1 cs with
          | .error e => .error e
          | .ok (l2, ch2, f2) => .ok (l1 ++ l2, ch1 || ch2, f2)

/-- The largest channel id declared in the package. -/
def maxChanId (g : List PackChan) : Nat :=
  g.foldr (fun c m => max c.id m) 0

/-- Modelled from the spec: the channel legalization pass on a whole
package.  Internal channel ids are allocated above every declared id.
Returns the rewritten package and whether anything changed. -/
def legalizePackage (g : List PackChan) : Except Status (List PackChan × Bool) :=
  match legalizeGo (maxChanId g + 1) g with
  | .error e => .error e
  | .ok (l, ch, _) => .ok (l, ch)

/-- Modelled from the spec: the facet of IR verification expressible over
the channel summary — spec.md section 3's invariant "Exactly one declared
channel per id" (`VerifyPackage` is not shipped). -/
def wellFormedP (g : List PackChan) : Prop :=
  (g.map fun c => c.id).Nodup

/-!
## Theorems
-/

theorem adapterStep_rtme_violation (name : String) (ord : Nat → Nat → Bool)
    (insts : List OpInstance) (h : 2 ≤ enabledCount insts) :
    adapterStep name .runtime_mutually_exclusive ord insts =
      .error ⟨.aborted, mutexViolationMsg name⟩ := by
  simp [adapterStep, h]

theorem adapterStep_rtme_single (name : String) (ord : Nat → Nat → Bool)
    (insts : List OpInstance) (h : enabledCount insts ≤ 1) :
    adapterStep name .runtime_mutually_exclusive ord insts =
      .ok (forwardedValues insts) := by
  simp only [adapterStep]
  rw [if_neg (by omega)]

theorem runActivations_rtme_abort (name : String) (ord : Nat → Nat → Bool)
    (bad : List OpInstance) (rest : List (List OpInstance)) :
    ∀ pre : List (List OpInstance), (∀ a ∈ pre, enabledCount a ≤ 1) →
      2 ≤ enabledCount bad →
      runActivations name .runtime_mutually_exclusive ord (pre ++ bad :: rest) =
        ⟨(pre.map forwardedValues).flatten, some ⟨.aborted, mutexViolationMsg name⟩⟩
  | [], _, hbad => by
      simp only [List.nil_append, List.map_nil, List.flatten_nil]
      rw [runActivations, adapterStep_rtme_violation name ord bad hbad]
  | a :: pre, hpre, hbad => by
      have ha : enabledCount a ≤ 1 := hpre a (List.mem_cons_self a pre)
      have ih := runActivations_rtme_abort name ord bad rest pre
        (fun x hx => hpre x (List.mem_cons_of_mem a hx)) hbad
      rw [List.cons_append, runActivations, adapterStep_rtme_single name ord a ha]
      simp [ih]

/-- Claim C1: for every channel with strictness `RuntimeMutuallyExclusive`,
if an activation has two enabled operations on the channel, the run aborts
with an error whose message contains "predicate was not mutually
exclusive"; the violating activation contributes no output on the channel,
and the outputs of all earlier activations remain readable in the channel
queue after the abort. -/
theorem runtime_mutex_abort_preserves_prior_outputs (name : String)
    (ord : Nat → Nat → Bool) (pre rest : List (List OpInstance))
    (bad : List OpInstance) (hpre : ∀ a ∈ pre, enabledCount a ≤ 1)
    (hbad : 2 ≤ enabledCount bad) :
    runActivations name .runtime_mutually_exclusive ord (pre ++ bad :: rest) =
      ⟨(pre.map forwardedValues).flatten, some ⟨.aborted, mutexViolationMsg name⟩⟩ ∧
    containsSubstr (mutexViolationMsg name) "predicate was not mutually exclusive" :=
  ⟨runActivations_rtme_abort name ord bad rest pre hpre hbad,
   "channel " ++ name ++ ": ", " in one activation", rfl⟩

/-- Witness for claim C1: a run whose first activation has a single enabled
operation producing 7 and whose second activation has two enabled
operations aborts, keeping the 7 in the queue. -/
theorem runtime_mutex_abort_example :
    runActivations "out" .runtime_mutually_exclusive noTokenOrder
        ([[⟨true, 7⟩]] ++ [⟨true, 1⟩, ⟨true, 2⟩] :: [[⟨true, 3⟩]]) =
      ⟨([[OpInstance.mk true 7]].map forwardedValues).flatten,
       some ⟨.aborted, mutexViolationMsg "out"⟩⟩ ∧
    containsSubstr (mutexViolationMsg "out") "predicate was not mutually exclusive" :=
  runtime_mutex_abort_preserves_prior_outputs "out" noTokenOrder
    [[⟨true, 7⟩]] [[⟨true, 3⟩]] [⟨true, 1⟩, ⟨true, 2⟩] (by decide) (by decide)

/-- Claim C2: for every channel with strictness `TotalOrder` and at least
two operations, legalization fails with a message containing "is not
totally ordered" exactly when the token graph does not order every pair of
its operations; when it does, legalization succeeds and reports the graph
changed. -/
theorem total_order_legalization_dichotomy (preds : List (List Nat))
    (c : ChanOps) (hs : c.strictness = .total_order) (h2 : 2 ≤ c.ops.length) :
    (pairwiseOrdered preds c.ops = false →
      legalizeResult preds c = .error ⟨.internal, notTotallyOrderedMsg c.name⟩ ∧
      containsSubstr (notTotallyOrderedMsg c.name) "is not totally ordered") ∧
    (pairwiseOrdered preds c.ops = true → legalizeResult preds c = .ok true) := by
  have hlen : ¬ c.ops.length ≤ 1 := by omega
  have hpme : ¬ c.strictness = .proven_mutually_exclusive := by simp [hs]
  constructor
  · intro h
    refine ⟨?_, "channel " ++ c.name ++ " ", " by the token graph", rfl⟩
    simp only [legalizeResult]
    rw [if_neg hlen, if_neg hpme, if_pos hs, if_neg (by simp [h])]
  · intro h
    simp only [legalizeResult]
    rw [if_neg hlen, if_neg hpme, if_pos hs, if_pos h]

/-- Witness for claim C2: the `out` channel of `SingleProcWithPartialOrder`
(sends `send1` and `send2` unordered) fails legalization under
`TotalOrder` with the mandated message. -/
theorem total_order_failure_example :
    (pairwiseOrdered scenUnordPreds scenUnordOutTO.ops = false →
      legalizeResult scenUnordPreds scenUnordOutTO =
        .error ⟨.internal, notTotallyOrderedMsg scenUnordOutTO.name⟩ ∧
      containsSubstr (notTotallyOrderedMsg scenUnordOutTO.name) "is not totally ordered") ∧
    (pairwiseOrdered scenUnordPreds scenUnordOutTO.ops = true →
      legalizeResult scenUnordPreds scenUnordOutTO = .ok true) :=
  total_order_legalization_dichotomy scenUnordPreds scenUnordOutTO rfl (by decide)

/-- Counterexample to claim C3 as stated: the `in` channel of
`TwoProcsAlwaysFiringCausesError` has two unconditional receives in two
different procs — predicates the pass cannot prove pairwise exclusive —
yet under `ProvenMutuallyExclusive` legalization reports success with no
change, not a compile-time error (the `builder_matcher` of that test
expects `IsOk()` for `kProvenMutuallyExclusive`). -/
theorem proven_mutex_unprovable_still_ok :
    legalizeResult [[], []] twoProcsInChanPME = .ok false := rfl

/-- Claim C3 (amended): for every channel declared
`ProvenMutuallyExclusive`, the channel legalization pass skips the channel:
it reports success with no change and inserts no adapter; exclusivity is
handled later (in scheduling / at run time). -/
theorem proven_mutex_skips_channel (preds : List (List Nat)) (c : ChanOps)
    (hs : c.strictness = .proven_mutually_exclusive) :
    legalizeResult preds c = .ok false := by
  simp [legalizeResult, hs]

/-- Witness for claim C3 (amended): the three-send `out` channel of
`SingleProcWithPartialOrder` under `ProvenMutuallyExclusive` is skipped. -/
theorem proven_mutex_skip_example :
    legalizeResult scenUnordPreds ⟨"out", .proven_mutually_exclusive, [0, 1, 2]⟩ = .ok false :=
  proven_mutex_skips_channel scenUnordPreds ⟨"out", .proven_mutually_exclusive, [0, 1, 2]⟩ rfl

/-- Counterexample to claim C4 as stated: under `RuntimeOrdered`, two
operations that become enabled simultaneously and are unordered by the
token graph (sends `send1`, `send2` of `SingleProcWithPartialOrder` with
both predicates true) do not both complete — the adapter aborts the run
with the exclusivity-violation message, as the test's `evaluate` expects
(`kAborted`, "was not mutually exclusive"). -/
theorem runtime_ordered_tie_aborts :
    adapterStep "out" .runtime_ordered (tokenPrecedes scenUnordPreds)
        [⟨true, 0⟩, ⟨true, 1⟩, ⟨true, 2⟩] =
      .error ⟨.aborted, mutexViolationMsg "out"⟩ := rfl

/-- Claim C4 (amended): for every channel declared `RuntimeOrdered`,
legalization always succeeds; at run time the adapter serializes the
enabled operations of an activation when they are pairwise ordered by the
token graph, but when two simultaneously enabled operations are unordered
by the token graph the run aborts with a message containing "predicate was
not mutually exclusive" instead of completing both. -/
theorem runtime_ordered_serializes_or_aborts (preds : List (List Nat))
    (c : ChanOps) (name : String) (ord : Nat → Nat → Bool)
    (insts : List OpInstance) (hs : c.strictness = .runtime_ordered) :
    (∃ b, legalizeResult preds c = .ok b) ∧
    (hasUnorderedEnabledPair ord insts = false →
      adapterStep name .runtime_ordered ord insts = .ok (forwardedValues insts)) ∧
    (hasUnorderedEnabledPair ord insts = true →
      adapterStep name .runtime_ordered ord insts =
        .error ⟨.aborted, mutexViolationMsg name⟩ ∧
      containsSubstr (mutexViolationMsg name) "predicate was not mutually exclusive") := by
  refine ⟨?_, ?_, ?_⟩
  · by_cases h1 : c.ops.length ≤ 1
    · exact ⟨false, by simp [legalizeResult, h1]⟩
    · exact ⟨true, by simp [legalizeResult, h1, hs]⟩
  · intro h
    simp [adapterStep, h]
  · intro h
    exact ⟨by simp [adapterStep, h], "channel " ++ name ++ ": ", " in one activation", rfl⟩

/-- Witness for claim C4 (amended): the ordered back-to-back sends of
`SingleProcBackToBackDataSwitchingOps` under `RuntimeOrdered`. -/
theorem runtime_ordered_behavior_example :
    (∃ b, legalizeResult scenAOutPreds (⟨"out", .runtime_ordered, [0, 1]⟩ : ChanOps) = .ok b) ∧
    (hasUnorderedEnabledPair scenAOrd [⟨true, 5⟩, ⟨true, 6⟩] = false →
      adapterStep "out" .runtime_ordered scenAOrd [⟨true, 5⟩, ⟨true, 6⟩] =
        .ok (forwardedValues [⟨true, 5⟩, ⟨true, 6⟩])) ∧
    (hasUnorderedEnabledPair scenAOrd [⟨true, 5⟩, ⟨true, 6⟩] = true →
      adapterStep "out" .runtime_ordered scenAOrd [⟨true, 5⟩, ⟨true, 6⟩] =
        .error ⟨.aborted, mutexViolationMsg "out"⟩ ∧
      containsSubstr (mutexViolationMsg "out") "predicate was not mutually exclusive") :=
  runtime_ordered_serializes_or_aborts scenAOutPreds
    ⟨"out", .runtime_ordered, [0, 1]⟩ "out" scenAOrd [⟨true, 5⟩, ⟨true, 6⟩] rfl

/-- Claim C5: in scenario A (`SingleProcBackToBackDataSwitchingOps`) with
the 32 inputs 0..31, the legalized network produces on `out` exactly the
pairwise-swapped sequence 1,0,3,2,...,31,30 under `TotalOrder`,
`RuntimeOrdered` and `ArbitraryStaticOrder`, while under
`RuntimeMutuallyExclusive` the run aborts with the exclusivity-violation
message and produces nothing. -/
theorem scenario_a_outputs :
    runActivations "out" .total_order scenAOrd (scenarioAOutActs (List.range 32)) =
      ⟨scenAExpected, none⟩ ∧
    runActivations "out" .runtime_ordered scenAOrd (scenarioAOutActs (List.range 32)) =
      ⟨scenAExpected, none⟩ ∧
    runActivations "out" .arbitrary_static_order scenAOrd (scenarioAOutActs (List.range 32)) =
      ⟨scenAExpected, none⟩ ∧
    runActivations "out" .runtime_mutually_exclusive scenAOrd (scenarioAOutActs (List.range 32)) =
      ⟨[], some ⟨.aborted, mutexViolationMsg "out"⟩⟩ ∧
    containsSubstr (mutexViolationMsg "out") "predicate was not mutually exclusive" :=
  ⟨rfl, rfl, rfl, rfl, "channel " ++ "out" ++ ": ", " in one activation", rfl⟩

/-- Claim C6: in scenario B (`TwoProcsMutuallyExclusive`), where the two
procs alternate via toggling predicates seeded 1 and 0, feeding the 32
inputs 0..31 yields `out` equal to 0..31 in order, with no abort, under
every tested strictness policy. -/
theorem scenario_b_outputs :
    runActivations "out" .proven_mutually_exclusive noTokenOrder
        (scenarioBOutActs 0 (List.range 32)) = ⟨List.range 32, none⟩ ∧
    runActivations "out" .runtime_mutually_exclusive noTokenOrder
        (scenarioBOutActs 0 (List.range 32)) = ⟨List.range 32, none⟩ ∧
    runActivations "out" .total_order noTokenOrder
        (scenarioBOutActs 0 (List.range 32)) = ⟨List.range 32, none⟩ ∧
    runActivations "out" .runtime_ordered noTokenOrder
        (scenarioBOutActs 0 (List.range 32)) = ⟨List.range 32, none⟩ ∧
    runActivations "out" .arbitrary_static_order noTokenOrder
        (scenarioBOutActs 0 (List.range 32)) = ⟨List.range 32, none⟩ :=
  ⟨rfl, rfl, rfl, rfl, rfl⟩

/-- Claim C7: in scenario C (`PredicateArrivesOutOfOrder`), while the
`pred0` queue is empty no amount of ticking produces any output or changes
anything, no matter how much data is already available on the
later-in-token-order `pred1` queue: the dependent send stays blocked until
the earlier predicate channel is also supplied. -/
theorem scenario_c_pred0_blocks (n : Nat) (p1 out0 : List Nat) :
    scenCTick^[n] ⟨[], p1, out0⟩ = (⟨[], p1, out0⟩ : ScenCState) ∧
    (scenCTick^[n] (⟨[], p1, out0⟩ : ScenCState)).outq = out0 := by
  have hfix : scenCTick (⟨[], p1, out0⟩ : ScenCState) = ⟨[], p1, out0⟩ := rfl
  have hiter : scenCTick^[n] (⟨[], p1, out0⟩ : ScenCState) = ⟨[], p1, out0⟩ := by
    induction n with
    | zero => rfl
    | succ n ih => rw [Function.iterate_succ_apply, hfix, ih]
  exact ⟨hiter, by rw [hiter]⟩

theorem tickUntilOutput_deadline_aux {σ : Type} (tick : σ → σ) (produced : σ → Nat)
    (blocked : σ → List String) (target : Nat) :
    ∀ (n : Nat) (st : σ), (∀ k, k ≤ n → produced (tick^[k] st) < target) →
      tickUntilOutput tick produced blocked target n st =
        .error ⟨.deadlineExceeded,
          deadlineMsg (String.intercalate ", " (blocked (tick^[n] st)))⟩
  | 0, st, _ => by simp [tickUntilOutput]
  | n + 1, st, h => by
      have h0 : produced st < target := by simpa using h 0 (Nat.zero_le _)
      have hrec := tickUntilOutput_deadline_aux tick produced blocked target n (tick st)
        (fun k hk => by
          have hx := h (k + 1) (by omega)
          rwa [Function.iterate_succ_apply] at hx)
      simp only [tickUntilOutput]
      rw [if_neg (by omega), hrec, Function.iterate_succ_apply]

/-- Claim C8: whenever `TickUntilOutput` runs out of its tick budget before
the target channel has produced its requested count of values, the call
fails with a deadline-exceeded error whose message contains "Blocked
channels: " followed by the names of the still-blocked channels. -/
theorem tick_until_output_deadline_reports_blocked {σ : Type} (tick : σ → σ)
    (produced : σ → Nat) (blocked : σ → List String) (target n : Nat) (st : σ)
    (h : ∀ k, k ≤ n → produced (tick^[k] st) < target) :
    tickUntilOutput tick produced blocked target n st =
      .error ⟨.deadlineExceeded,
        deadlineMsg (String.intercalate ", " (blocked (tick^[n] st)))⟩ ∧
    containsSubstr
      (deadlineMsg (String.intercalate ", " (blocked (tick^[n] st))))
      ("Blocked channels: " ++ String.intercalate ", " (blocked (tick^[n] st))) :=
  ⟨tickUntilOutput_deadline_aux tick produced blocked target n st h,
   "deadline exceeded before requested outputs were produced; ", " remain stalled", rfl⟩

/-- Witness for claim C8: scenario C with only `pred1` supplied; ten ticks
produce nothing, so `TickUntilOutput` fails naming the blocked channel
`pred0` — exactly the "Blocked channels: pred0" the test matches. -/
theorem deadline_blocked_example :
    tickUntilOutput scenCTick (fun st => st.outq.length) scenCBlocked 1 10
        (⟨[], [1], []⟩ : ScenCState) =
      .error ⟨.deadlineExceeded,
        deadlineMsg (String.intercalate ", "
          (scenCBlocked (scenCTick^[10] (⟨[], [1], []⟩ : ScenCState))))⟩ ∧
    containsSubstr
      (deadlineMsg (String.intercalate ", "
        (scenCBlocked (scenCTick^[10] (⟨[], [1], []⟩ : ScenCState)))))
      ("Blocked channels: " ++ String.intercalate ", "
        (scenCBlocked (scenCTick^[10] (⟨[], [1], []⟩ : ScenCState)))) :=
  tick_until_output_deadline_reports_blocked scenCTick (fun st => st.outq.length)
    scenCBlocked 1 10 ⟨[], [1], []⟩ (by decide)

theorem adapterRewrite_mem (fresh : Nat) (c : PackChan) (d : PackChan)
    (hd : d ∈ adapterRewrite fresh c) : d.numOps = 1 := by
  simp only [adapterRewrite, List.mem_cons, List.mem_map] at hd
  rcases hd with rfl | ⟨k, -, rfl⟩ <;> rfl

theorem legalizeChanP_flat_mem (fresh : Nat) (c : PackChan) (l : List PackChan)
    (ch : Bool) (f' : Nat) (h : legalizeChanP fresh c = .ok (l, ch, f')) :
    ∀ d ∈ l, d.numOps ≤ 1 ∨ d.strictness = .proven_mutually_exclusive := by
  unfold legalizeChanP at h
  split_ifs at h with h1 h2 h3 h4
  · simp only [Except.ok.injEq, Prod.mk.injEq] at h
    obtain ⟨rfl, -, -⟩ := h
    simp [h1]
  · simp only [Except.ok.injEq, Prod.mk.injEq] at h
    obtain ⟨rfl, -, -⟩ := h
    simp [h2]
  · simp only [Except.ok.injEq, Prod.mk.injEq] at h
    obtain ⟨rfl, -, -⟩ := h
    intro d hd
    exact Or.inl (Nat.le_of_eq (adapterRewrite_mem fresh c d hd))
  · simp only [Except.ok.injEq, Prod.mk.injEq] at h
    obtain ⟨rfl, -, -⟩ := h
    intro d hd
    exact Or.inl (Nat.le_of_eq (adapterRewrite_mem fresh c d hd))

theorem legalizeChanP_of_flat (fresh : Nat) (c : PackChan)
    (hc : c.numOps ≤ 1 ∨ c.strictness = .proven_mutually_exclusive) :
    legalizeChanP fresh c = .ok ([c], false, fresh) := by
  unfold legalizeChanP
  rcases hc with hc | hc
  · rw [if_pos hc]
  · by_cases h1 : c.numOps ≤ 1
    · rw [if_pos h1]
    · rw [if_neg h1, if_pos hc]

theorem legalizeGo_flat :
    ∀ (cs : List PackChan),
      (∀ c ∈ cs, c.numOps ≤ 1 ∨ c.strictness = .proven_mutually_exclusive) →
      ∀ fresh, legalizeGo fresh cs = .ok (cs, false, fresh)
  | [], _, fresh => rfl
  | c :: cs, hcs, fresh => by
      have h1 := legalizeChanP_of_flat fresh c (hcs c (List.mem_cons_self c cs))
      have h2 := legalizeGo_flat cs (fun d hd => hcs d (List.mem_cons_of_mem c hd)) fresh
      simp [legalizeGo, h1, h2]

theorem legalizeGo_flat_out :
    ∀ (cs : List PackChan) (fresh : Nat) (l : List PackChan) (ch : Bool) (f' : Nat),
      legalizeGo fresh cs = .ok (l, ch, f') →
      ∀ d ∈ l, d.numOps ≤ 1 ∨ d.strictness = .proven_mutually_exclusive
  | [], fresh, l, ch, f', h => by
      simp only [legalizeGo, Except.ok.injEq, Prod.mk.injEq] at h
      obtain ⟨rfl, -, -⟩ := h
      simp
  | c :: cs, fresh, l, ch, f', h => by
      cases e1 : legalizeChanP fresh c with
      | error st => simp [legalizeGo, e1] at h
      | ok r1 =>
          obtain ⟨l1, ch1, f1⟩ := r1
          cases e2 : legalizeGo f1 cs with
          | error st => simp [legalizeGo, e1, e2] at h
          | ok r2 =>
              obtain ⟨l2, ch2, f2⟩ := r2
              simp only [legalizeGo, e1, e2, Except.ok.injEq, Prod.mk.injEq] at h
              obtain ⟨rfl, -, -⟩ := h
              intro d hd
              rcases List.mem_append.mp hd with hd | hd
              · exact legalizeChanP_flat_mem fresh c l1 ch1 f1 e1 d hd
              · exact legalizeGo_flat_out cs f1 l2 ch2 f2 e2 d hd

/-- Claim C9: legalization is idempotent per channel — if the pass succeeds
on a package, running it again on the resulting package succeeds, leaves
every channel unchanged (no second adapter processes or internal channels
are inserted), and reports no change. -/
theorem legalization_idempotent (g g' : List PackChan) (ch : Bool)
    (h : legalizePackage g = .ok (g', ch)) :
    legalizePackage g' = .ok (g', false) := by
  unfold legalizePackage at h ⊢
  cases e : legalizeGo (maxChanId g + 1) g with
  | error st => simp [e] at h
  | ok r =>
      obtain ⟨l, ch2, f⟩ := r
      simp only [e, Except.ok.injEq, Prod.mk.injEq] at h
      obtain ⟨rfl, -⟩ := h
      rw [legalizeGo_flat l (legalizeGo_flat_out g (maxChanId g + 1) l ch2 f e)
        (maxChanId l + 1)]

/-- Witness for claim C9: legalizing a two-send channel inserts an adapter
and two internal channels; running the pass again on the result is a
no-op. -/
theorem legalization_idempotent_example :
    legalizePackage [⟨0, "out", .arbitrary_static_order, 1, true⟩,
        ⟨1, "out__internal0", defaultStrictness, 1, true⟩,
        ⟨2, "out__internal1", defaultStrictness, 1, true⟩] =
      .ok ([⟨0, "out", .arbitrary_static_order, 1, true⟩,
            ⟨1, "out__internal0", defaultStrictness, 1, true⟩,
            ⟨2, "out__internal1", defaultStrictness, 1, true⟩], false) :=
  legalization_idempotent [⟨0, "out", .arbitrary_static_order, 2, false⟩] _ true rfl

theorem mem_le_maxChanId : ∀ (g : List PackChan), ∀ c ∈ g, c.id ≤ maxChanId g
  | [], c, hc => absurd hc (List.not_mem_nil c)
  | a :: g, c, hc => by
      rcases List.mem_cons.mp hc with rfl | hc
      · exact Nat.le_max_left c.id (maxChanId g)
      · exact (mem_le_maxChanId g c hc).trans (Nat.le_max_right a.id (maxChanId g))

theorem adapterRewrite_ids_nodup (fresh : Nat) (c : PackChan) (hc : c.id < fresh) :
    ((adapterRewrite fresh c).map fun d => d.id).Nodup := by
  simp only [adapterRewrite, List.map_cons, List.map_map, List.nodup_cons]
  constructor
  · simp only [Function.comp, List.mem_map, List.mem_range, not_exists]
    intro k hk
    omega
  · refine List.Nodup.map ?_ (List.nodup_range _)
    intro a b hab
    simpa using hab

theorem adapterRewrite_ids_mem (fresh : Nat) (c : PackChan) (d : PackChan)
    (hd : d ∈ adapterRewrite fresh c) :
    d.id = c.id ∨ (fresh ≤ d.id ∧ d.id < fresh + c.numOps) := by
  simp only [adapterRewrite, List.mem_cons, List.mem_map] at hd
  rcases hd with rfl | ⟨k, hk, rfl⟩
  · exact Or.inl rfl
  · simp only [List.mem_range] at hk
    right
    refine ⟨Nat.le_add_right fresh k, ?_⟩
    show fresh + k < fresh + c.numOps
    omega

theorem legalizeChanP_ids (fresh : Nat) (c : PackChan) (l : List PackChan)
    (ch : Bool) (f' : Nat) (h : legalizeChanP fresh c = .ok (l, ch, f'))
    (hc : c.id < fresh) :
    fresh ≤ f' ∧ ((l.map fun d => d.id).Nodup) ∧
      ∀ d ∈ l, d.id = c.id ∨ (fresh ≤ d.id ∧ d.id < f') := by
  unfold legalizeChanP at h
  split_ifs at h with h1 h2 h3 h4
  · simp only [Except.ok.injEq, Prod.mk.injEq] at h
    obtain ⟨rfl, -, rfl⟩ := h
    exact ⟨le_refl _, by simp, by simp⟩
  · simp only [Except.ok.injEq, Prod.mk.injEq] at h
    obtain ⟨rfl, -, rfl⟩ := h
    exact ⟨le_refl _, by simp, by simp⟩
  · simp only [Except.ok.injEq, Prod.mk.injEq] at h
    obtain ⟨rfl, -, rfl⟩ := h
    exact ⟨Nat.le_add_right _ _, adapterRewrite_ids_nodup fresh c hc,
      fun d hd => adapterRewrite_ids_mem fresh c d hd⟩
  · simp only [Except.ok.injEq, Prod.mk.injEq] at h
    obtain ⟨rfl, -, rfl⟩ := h
    exact ⟨Nat.le_add_right _ _, adapterRewrite_ids_nodup fresh c hc,
      fun d hd => adapterRewrite_ids_mem fresh c d hd⟩

theorem legalizeGo_ids :
    ∀ (cs : List PackChan) (fresh : Nat) (l : List PackChan) (ch : Bool) (f' : Nat),
      (∀ c ∈ cs, c.id < fresh) → ((cs.map fun c => c.id).Nodup) →
      legalizeGo fresh cs = .ok (l, ch, f') →
      fresh ≤ f' ∧ ((l.map fun d => d.id).Nodup) ∧
        ∀ d ∈ l, (∃ c0 ∈ cs, d.id = c0.id) ∨ (fresh ≤ d.id ∧ d.id < f')
  | [], fresh, l, ch, f', _, _, h => by
      simp only [legalizeGo, Except.ok.injEq, Prod.mk.injEq] at h
      obtain ⟨rfl, -, rfl⟩ := h
      exact ⟨le_refl _, by simp, by simp⟩
  | c :: cs, fresh, l, ch, f', hlt, hnd, h => by
      cases e1 : legalizeChanP fresh c with
      | error st => simp [legalizeGo, e1] at h
      | ok r1 =>
          obtain ⟨l1, ch1, f1⟩ := r1
          cases e2 : legalizeGo f1 cs with
          | error st => simp [legalizeGo, e1, e2] at h
          | ok r2 =>
              obtain ⟨l2, ch2, f2⟩ := r2
              simp only [legalizeGo, e1, e2, Except.ok.injEq, Prod.mk.injEq] at h
              obtain ⟨rfl, -, rfl⟩ := h
              have spec1 := legalizeChanP_ids fresh c l1 ch1 f1 e1
                (hlt c (List.mem_cons_self c cs))
              rw [List.map_cons, List.nodup_cons] at hnd
              have hlt2 : ∀ x ∈ cs, x.id < f1 :=
                fun x hx => lt_of_lt_of_le (hlt x (List.mem_cons_of_mem c hx)) spec1.1
              have spec2 := legalizeGo_ids cs f1 l2 ch2 f2 hlt2 hnd.2 e2
              refine ⟨spec1.1.trans spec2.1, ?_, ?_⟩
              · rw [List.map_append, List.nodup_append]
                refine ⟨spec1.2.1, spec2.2.1, List.disjoint_left.mpr ?_⟩
                intro a ha1 ha2
                obtain ⟨d1, hd1, rfl⟩ := List.mem_map.mp ha1
                obtain ⟨d2, hd2, hid⟩ := List.mem_map.mp ha2
                rcases spec1.2.2 d1 hd1 with hA | hA <;>
                  rcases spec2.2.2 d2 hd2 with hB | hB
                · obtain ⟨c0, hc0, hc0e⟩ := hB
                  exact hnd.1 (List.mem_map.mpr ⟨c0, hc0, by rw [← hc0e, hid, hA]⟩)
                · have := hlt c (List.mem_cons_self c cs)
                  omega
                · obtain ⟨c0, hc0, hc0e⟩ := hB
                  have := hlt c0 (List.mem_cons_of_mem c hc0)
                  omega
                · omega
              · intro d hd
                rcases List.mem_append.mp hd with hd | hd
                · rcases spec1.2.2 d hd with hA | hA
                  · exact Or.inl ⟨c, List.mem_cons_self c cs, hA⟩
                  · exact Or.inr ⟨hA.1, lt_of_lt_of_le hA.2 spec2.1⟩
                · rcases spec2.2.2 d hd with hB | hB
                  · obtain ⟨c0, hc0, hc0e⟩ := hB
                    exact Or.inl ⟨c0, List.mem_cons_of_mem c hc0, hc0e⟩
                  · exact Or.inr ⟨le_trans spec1.1 hB.1, hB.2⟩

/-- Claim C10: whenever the channel legalization pass returns success on a
package, the rewritten package is still well-formed: the adapter channels
it synthesizes keep the package's channel ids pairwise distinct (the
"exactly one declared channel per id" invariant that IR verification
checks). -/
theorem legalization_preserves_wellformed (g g' : List PackChan) (ch : Bool)
    (h : legalizePackage g = .ok (g', ch)) (hwf : wellFormedP g) :
    wellFormedP g' := by
  unfold legalizePackage at h
  cases e : legalizeGo (maxChanId g + 1) g with
  | error st => simp [e] at h
  | ok r =>
      obtain ⟨l, ch2, f⟩ := r
      simp only [e, Except.ok.injEq, Prod.mk.injEq] at h
      obtain ⟨rfl, -⟩ := h
      exact (legalizeGo_ids g (maxChanId g + 1) l ch2 f
        (fun c hc => Nat.lt_succ_of_le (mem_le_maxChanId g c hc)) hwf e).2.1

/-- Witness for claim C10: legalizing a two-channel package under
`RuntimeOrdered` and `TotalOrder` yields a six-channel package whose ids
are still pairwise distinct. -/
theorem legalization_wellformed_example :
    wellFormedP [⟨0, "in", .runtime_ordered, 1, true⟩,
      ⟨2, "in__internal0", defaultStrictness, 1, true⟩,
      ⟨3, "in__internal1", defaultStrictness, 1, true⟩,
      ⟨1, "out", .total_order, 1, true⟩,
      ⟨4, "out__internal0", defaultStrictness, 1, true⟩,
      ⟨5, "out__internal1", defaultStrictness, 1, true⟩] :=
  legalization_preserves_wellformed
    [⟨0, "in", .runtime_ordered, 2, false⟩, ⟨1, "out", .total_order, 2, true⟩] _ true rfl
    (by unfold wellFormedP; decide)
